import Mathlib

/-!
Verification of the mimalloc global-allocator adapter (`src/lib.rs`).

The adapter is a pure pass-through: each of the four `GlobalAlloc`
operations makes exactly one foreign (FFI) call into the mimalloc
library.  We embed the adapter as instrumented pure functions that
return, besides the foreign library's answer, the list of foreign calls
performed, generically over the foreign library's step function.  The
foreign library itself (`mi_malloc_aligned`, `mi_zalloc_aligned`,
`mi_free`, `mi_realloc_aligned`) is not part of `src/`; it is modelled
from the spec as a concrete heap model `miStep`.
-/

/-- `core::alloc::Layout`: an allocation request, a pair of size in bytes
and required alignment in bytes. -/
structure Layout where
  size : Nat
  align : Nat
deriving DecidableEq

/-- The foreign entry points the adapter may invoke, with the arguments
passed across the FFI boundary.  Addresses are modelled as `Nat`, with
`0` the null / failure sentinel. -/
inductive FFICall where
  | malloc_aligned (size align : Nat)
  | zalloc_aligned (size align : Nat)
  | free (ptr : Nat)
  | realloc_aligned (ptr newSize align : Nat)
deriving DecidableEq

/-- The adapter type.  `pub struct MiMalloc;` is a unit (zero-sized)
struct: it has no fields. -/
structure MiMalloc

/-- `MiMalloc::alloc` (src/lib.rs:53-55): one call to
`mi_malloc_aligned(layout.size(), layout.align())`, whose result is
returned unchanged.  The embedding additionally records the list of
foreign calls performed, and is generic over the foreign library
(`step` on an abstract foreign-heap state `σ`). -/
def MiMalloc.alloc {σ : Type} (step : σ → FFICall → σ × Nat)
    (_self : MiMalloc) (s : σ) (layout : Layout) : σ × List FFICall × Nat :=
  let c := FFICall.malloc_aligned layout.size layout.align
  let r := step s c
  (r.1, [c], r.2)

/-- `MiMalloc::alloc_zeroed` (src/lib.rs:58-60): one call to
`mi_zalloc_aligned(layout.size(), layout.align())`, result returned
unchanged. -/
def MiMalloc.alloc_zeroed {σ : Type} (step : σ → FFICall → σ × Nat)
    (_self : MiMalloc) (s : σ) (layout : Layout) : σ × List FFICall × Nat :=
  let c := FFICall.zalloc_aligned layout.size layout.align
  let r := step s c
  (r.1, [c], r.2)

/-- `MiMalloc::dealloc` (src/lib.rs:63-65): one call to `mi_free(ptr)`.
The `_layout` parameter is bound but never used, exactly as in the
source (`_layout: Layout`). -/
def MiMalloc.dealloc {σ : Type} (step : σ → FFICall → σ × Nat)
    (_self : MiMalloc) (s : σ) (ptr : Nat) (_layout : Layout) :
    σ × List FFICall :=
  let c := FFICall.free ptr
  ((step s c).1, [c])

/-- `MiMalloc::realloc` (src/lib.rs:68-70): one call to
`mi_realloc_aligned(ptr, new_size, layout.align())`, result returned
unchanged.  Note the alignment comes from the old layout and the old
layout's size is never read. -/
def MiMalloc.realloc {σ : Type} (step : σ → FFICall → σ × Nat)
    (_self : MiMalloc) (s : σ) (ptr : Nat) (layout : Layout)
    (new_size : Nat) : σ × List FFICall × Nat :=
  let c := FFICall.realloc_aligned ptr new_size layout.align
  let r := step s c
  (r.1, [c], r.2)

/-- Modelled from the spec: the foreign allocator's internal heap state
(the mimalloc library itself is outside `src/`).  `blocks` records each
live block as (base address, size); `mem` gives the byte stored at each
address; `capacity` bounds the addresses the allocator may hand out,
letting the model exhibit allocation failure; `next` is the bump
pointer of the model. -/
structure MiHeap where
  capacity : Nat
  next : Nat
  blocks : List (Nat × Nat)
  mem : Nat → Nat

/-- Round `a` up to the next multiple of `n`. -/
def alignUp (a n : Nat) : Nat :=
  if a % n = 0 then a else a + (n - a % n)

/-- Modelled from the spec: semantics of the four foreign entry points.
`mi_malloc_aligned` returns a fresh aligned block (no zero-fill) or the
sentinel `0` on exhaustion; `mi_zalloc_aligned` is the dedicated zeroing
primitive, additionally zeroing the block's bytes; `mi_free` releases
the block; `mi_realloc_aligned` allocates a block of the new size at the
given alignment, preserves the first `min oldSize newSize` bytes of the
old block's content, and releases the old block — on failure it returns
the sentinel and leaves the heap completely unchanged. -/
def miStep (h : MiHeap) : FFICall → MiHeap × Nat
  | FFICall.malloc_aligned size align =>
    let base := alignUp (max h.next 1) align
    if base + size ≤ h.capacity then
      ({ h with
          next := base + size
          blocks := (base, size) :: h.blocks },
        base)
    else (h, 0)
  | FFICall.zalloc_aligned size align =>
    let base := alignUp (max h.next 1) align
    if base + size ≤ h.capacity then
      ({ h with
          next := base + size
          blocks := (base, size) :: h.blocks
          mem := fun a => if base ≤ a ∧ a < base + size then 0 else h.mem a },
        base)
    else (h, 0)
  | FFICall.free ptr =>
    ({ h with blocks := h.blocks.filter (fun b => b.1 != ptr) }, 0)
  | FFICall.realloc_aligned ptr newSize align =>
    let oldSize := (List.lookup ptr h.blocks).getD 0
    let base := alignUp (max h.next 1) align
    if base + newSize ≤ h.capacity then
      ({ h with
          next := base + newSize
          blocks := (base, newSize) :: h.blocks.filter (fun b => b.1 != ptr)
          mem := fun a =>
            if base ≤ a ∧ a < base + min oldSize newSize then
              h.mem (ptr + (a - base))
            else h.mem a },
        base)
    else (h, 0)

theorem le_alignUp (a n : Nat) : a ≤ alignUp a n := by
  unfold alignUp
  split_ifs
  · exact Nat.le_refl a
  · exact Nat.le_add_right a _

theorem alignUp_mod (a n : Nat) (hn : 0 < n) : alignUp a n % n = 0 := by
  unfold alignUp
  split_ifs with h
  · exact h
  · have hm : a % n < n := Nat.mod_lt a hn
    have key : a + (n - a % n) = n * (a / n + 1) := by
      have hd : n * (a / n) + a % n = a := Nat.div_add_mod a n
      rw [Nat.mul_add, Nat.mul_one]
      omega
    rw [key, Nat.mul_mod_right]

theorem one_le_alignUp (next align : Nat) : 1 ≤ alignUp (max next 1) align :=
  le_trans (Nat.le_max_right next 1) (le_alignUp _ _)

theorem miStep_malloc_eq (h : MiHeap) (size align : Nat) :
    miStep h (FFICall.malloc_aligned size align) =
      (if alignUp (max h.next 1) align + size ≤ h.capacity then
        ({ h with
            next := alignUp (max h.next 1) align + size
            blocks := (alignUp (max h.next 1) align, size) :: h.blocks },
          alignUp (max h.next 1) align)
      else (h, 0)) := rfl

theorem miStep_zalloc_eq (h : MiHeap) (size align : Nat) :
    miStep h (FFICall.zalloc_aligned size align) =
      (if alignUp (max h.next 1) align + size ≤ h.capacity then
        ({ h with
            next := alignUp (max h.next 1) align + size
            blocks := (alignUp (max h.next 1) align, size) :: h.blocks
            mem := fun a =>
              if alignUp (max h.next 1) align ≤ a ∧
                  a < alignUp (max h.next 1) align + size then 0
              else h.mem a },
          alignUp (max h.next 1) align)
      else (h, 0)) := rfl

theorem miStep_free_eq (h : MiHeap) (ptr : Nat) :
    miStep h (FFICall.free ptr) =
      ({ h with blocks := h.blocks.filter (fun b => b.1 != ptr) }, 0) := rfl

theorem miStep_realloc_eq (h : MiHeap) (ptr newSize align : Nat) :
    miStep h (FFICall.realloc_aligned ptr newSize align) =
      (if alignUp (max h.next 1) align + newSize ≤ h.capacity then
        ({ h with
            next := alignUp (max h.next 1) align + newSize
            blocks := (alignUp (max h.next 1) align, newSize) ::
              h.blocks.filter (fun b => b.1 != ptr)
            mem := fun a =>
              if alignUp (max h.next 1) align ≤ a ∧
                  a < alignUp (max h.next 1) align +
                    min ((List.lookup ptr h.blocks).getD 0) newSize then
                h.mem (ptr + (a - alignUp (max h.next 1) align))
              else h.mem a },
          alignUp (max h.next 1) align)
      else (h, 0)) := rfl

theorem miStep_malloc_dichotomy (h : MiHeap) (size align : Nat)
    (halign : 0 < align) :
    (miStep h (FFICall.malloc_aligned size align)).2 = 0 ∨
    ((miStep h (FFICall.malloc_aligned size align)).2 % align = 0 ∧
      ∃ bsize, ((miStep h (FFICall.malloc_aligned size align)).2, bsize) ∈
          (miStep h (FFICall.malloc_aligned size align)).1.blocks ∧
        size ≤ bsize) := by
  rw [miStep_malloc_eq]
  split_ifs with hc
  · right
    refine ⟨alignUp_mod _ _ halign, size, ?_, Nat.le_refl _⟩
    simp
  · left
    rfl

theorem miStep_zalloc_dichotomy (h : MiHeap) (size align : Nat) :
    (miStep h (FFICall.zalloc_aligned size align)).2 = 0 ∨
    (∀ i, i < size →
      (miStep h (FFICall.zalloc_aligned size align)).1.mem
        ((miStep h (FFICall.zalloc_aligned size align)).2 + i) = 0) := by
  rw [miStep_zalloc_eq]
  split_ifs with hc
  · right
    intro i hi
    simp [hi]
  · left
    rfl

theorem miStep_realloc_dichotomy (h : MiHeap) (ptr newSize align oldSize : Nat)
    (halign : 0 < align)
    (hblk : List.lookup ptr h.blocks = some oldSize) :
    (miStep h (FFICall.realloc_aligned ptr newSize align)).2 = 0 ∨
    ((miStep h (FFICall.realloc_aligned ptr newSize align)).2 % align = 0 ∧
      ∀ i, i < min oldSize newSize →
        (miStep h (FFICall.realloc_aligned ptr newSize align)).1.mem
            ((miStep h (FFICall.realloc_aligned ptr newSize align)).2 + i) =
          h.mem (ptr + i)) := by
  rw [miStep_realloc_eq, hblk]
  split_ifs with hc
  · right
    refine ⟨alignUp_mod _ _ halign, ?_⟩
    intro i hi
    simp [hi]
  · left
    rfl

/-- A concrete foreign-heap state with room to allocate, for witnesses. -/
def heapA : MiHeap :=
  { capacity := 64, next := 1, blocks := [], mem := fun _ => 7 }

/-- A concrete foreign-heap state holding one live block (8, 4). -/
def heapB : MiHeap :=
  { capacity := 64, next := 12, blocks := [(8, 4)], mem := fun a => a + 1 }

/-- A concrete exhausted foreign-heap state: every allocation fails. -/
def heapF : MiHeap :=
  { capacity := 0, next := 1, blocks := [], mem := fun _ => 0 }

/-- C1: `alloc` forwards exactly the requested size and alignment to the
foreign `mi_malloc_aligned` primitive and returns its result unchanged;
that result is either the failure sentinel `0` or an address that is a
multiple of the requested alignment and heads a block holding at least
`size` bytes. -/
theorem alloc_forwards_size_align (m : MiMalloc) (h : MiHeap)
    (layout : Layout) (_hsize : 0 < layout.size)
    (hpow : ∃ k, layout.align = 2 ^ k) :
    (MiMalloc.alloc miStep m h layout).2.1 =
        [FFICall.malloc_aligned layout.size layout.align] ∧
    (MiMalloc.alloc miStep m h layout).2.2 =
        (miStep h (FFICall.malloc_aligned layout.size layout.align)).2 ∧
    ((MiMalloc.alloc miStep m h layout).2.2 = 0 ∨
      ((MiMalloc.alloc miStep m h layout).2.2 % layout.align = 0 ∧
        ∃ bsize,
          ((MiMalloc.alloc miStep m h layout).2.2, bsize) ∈
              (MiMalloc.alloc miStep m h layout).1.blocks ∧
          layout.size ≤ bsize)) := by
  obtain ⟨k, hk⟩ := hpow
  have halign : 0 < layout.align := by
    rw [hk]; exact pow_pos (by norm_num) k
  exact ⟨rfl, rfl, miStep_malloc_dichotomy h layout.size layout.align halign⟩

theorem alloc_forwards_size_align_witness :
    0 < (Layout.mk 8 8).size ∧ (∃ k, (Layout.mk 8 8).align = 2 ^ k) ∧
    ((MiMalloc.alloc miStep MiMalloc.mk heapA (Layout.mk 8 8)).2.1 =
        [FFICall.malloc_aligned 8 8] ∧
      (MiMalloc.alloc miStep MiMalloc.mk heapA (Layout.mk 8 8)).2.2 =
        (miStep heapA (FFICall.malloc_aligned 8 8)).2 ∧
      ((MiMalloc.alloc miStep MiMalloc.mk heapA (Layout.mk 8 8)).2.2 = 0 ∨
        ((MiMalloc.alloc miStep MiMalloc.mk heapA (Layout.mk 8 8)).2.2 % 8 = 0 ∧
          ∃ bsize,
            ((MiMalloc.alloc miStep MiMalloc.mk heapA (Layout.mk 8 8)).2.2,
                bsize) ∈
              (MiMalloc.alloc miStep MiMalloc.mk heapA (Layout.mk 8 8)).1.blocks ∧
            8 ≤ bsize))) :=
  ⟨by decide, ⟨3, rfl⟩,
    alloc_forwards_size_align MiMalloc.mk heapA (Layout.mk 8 8)
      (by decide) ⟨3, rfl⟩⟩

/-- C2: `alloc_zeroed` makes exactly one foreign call, to the dedicated
zeroing primitive `mi_zalloc_aligned` (a distinct entry point, not
`mi_malloc_aligned` followed by an adapter-side fill), returns its
result unchanged, and on success the first `size` bytes of the returned
block are zero at the moment of return. -/
theorem alloc_zeroed_forwards_and_zeroes (m : MiMalloc) (h : MiHeap)
    (layout : Layout) :
    (MiMalloc.alloc_zeroed miStep m h layout).2.1 =
        [FFICall.zalloc_aligned layout.size layout.align] ∧
    (MiMalloc.alloc_zeroed miStep m h layout).2.2 =
        (miStep h (FFICall.zalloc_aligned layout.size layout.align)).2 ∧
    ((MiMalloc.alloc_zeroed miStep m h layout).2.2 = 0 ∨
      ∀ i, i < layout.size →
        (MiMalloc.alloc_zeroed miStep m h layout).1.mem
            ((MiMalloc.alloc_zeroed miStep m h layout).2.2 + i) = 0) :=
  ⟨rfl, rfl, miStep_zalloc_dichotomy h layout.size layout.align⟩

theorem alloc_zeroed_forwards_and_zeroes_witness :
    (MiMalloc.alloc_zeroed miStep MiMalloc.mk heapA (Layout.mk 8 8)).2.1 =
        [FFICall.zalloc_aligned 8 8] ∧
    (MiMalloc.alloc_zeroed miStep MiMalloc.mk heapA (Layout.mk 8 8)).2.2 =
        (miStep heapA (FFICall.zalloc_aligned 8 8)).2 ∧
    ((MiMalloc.alloc_zeroed miStep MiMalloc.mk heapA (Layout.mk 8 8)).2.2 =
        0 ∨
      ∀ i, i < 8 →
        (MiMalloc.alloc_zeroed miStep MiMalloc.mk heapA (Layout.mk 8 8)).1.mem
            ((MiMalloc.alloc_zeroed miStep MiMalloc.mk heapA
                (Layout.mk 8 8)).2.2 + i) = 0) :=
  alloc_zeroed_forwards_and_zeroes MiMalloc.mk heapA (Layout.mk 8 8)

/-- C3: `realloc` makes exactly one foreign call, to
`mi_realloc_aligned`, passing the handle, the new size, and the
alignment taken from the original layout; it returns the result
unchanged, and on success the new block is aligned to the original
alignment and its first `min old_size new_size` bytes equal the
original block's content. -/
theorem realloc_forwards_preserves (m : MiMalloc) (h : MiHeap) (ptr : Nat)
    (layout : Layout) (new_size oldSize : Nat)
    (hpow : ∃ k, layout.align = 2 ^ k)
    (hblk : List.lookup ptr h.blocks = some oldSize) :
    (MiMalloc.realloc miStep m h ptr layout new_size).2.1 =
        [FFICall.realloc_aligned ptr new_size layout.align] ∧
    (MiMalloc.realloc miStep m h ptr layout new_size).2.2 =
        (miStep h (FFICall.realloc_aligned ptr new_size layout.align)).2 ∧
    ((MiMalloc.realloc miStep m h ptr layout new_size).2.2 = 0 ∨
      ((MiMalloc.realloc miStep m h ptr layout new_size).2.2 %
          layout.align = 0 ∧
        ∀ i, i < min oldSize new_size →
          (MiMalloc.realloc miStep m h ptr layout new_size).1.mem
              ((MiMalloc.realloc miStep m h ptr layout new_size).2.2 + i) =
            h.mem (ptr + i))) := by
  obtain ⟨k, hk⟩ := hpow
  have halign : 0 < layout.align := by
    rw [hk]; exact pow_pos (by norm_num) k
  exact ⟨rfl, rfl,
    miStep_realloc_dichotomy h ptr new_size layout.align oldSize halign hblk⟩

theorem realloc_forwards_preserves_witness :
    (∃ k, (Layout.mk 4 8).align = 2 ^ k) ∧
    List.lookup 8 heapB.blocks = some 4 ∧
    ((MiMalloc.realloc miStep MiMalloc.mk heapB 8 (Layout.mk 4 8) 2).2.1 =
        [FFICall.realloc_aligned 8 2 8] ∧
      (MiMalloc.realloc miStep MiMalloc.mk heapB 8 (Layout.mk 4 8) 2).2.2 =
        (miStep heapB (FFICall.realloc_aligned 8 2 8)).2 ∧
      ((MiMalloc.realloc miStep MiMalloc.mk heapB 8 (Layout.mk 4 8) 2).2.2 =
          0 ∨
        ((MiMalloc.realloc miStep MiMalloc.mk heapB 8
              (Layout.mk 4 8) 2).2.2 % 8 = 0 ∧
          ∀ i, i < min 4 2 →
            (MiMalloc.realloc miStep MiMalloc.mk heapB 8
                (Layout.mk 4 8) 2).1.mem
                ((MiMalloc.realloc miStep MiMalloc.mk heapB 8
                    (Layout.mk 4 8) 2).2.2 + i) =
              heapB.mem (8 + i)))) :=
  ⟨⟨3, rfl⟩, rfl,
    realloc_forwards_preserves MiMalloc.mk heapB 8 (Layout.mk 4 8) 2 4
      ⟨3, rfl⟩ rfl⟩

/-- C4: `dealloc` passes only the handle to the foreign `mi_free`
primitive: the layout parameter is never forwarded nor inspected — any
two layouts give the identical call and outcome — and the free call is
made unconditionally, for every foreign state and every handle. -/
theorem dealloc_ignores_layout {σ : Type} (step : σ → FFICall → σ × Nat)
    (m : MiMalloc) (s : σ) (ptr : Nat) (l1 l2 : Layout) :
    MiMalloc.dealloc step m s ptr l1 =
        ((step s (FFICall.free ptr)).1, [FFICall.free ptr]) ∧
    MiMalloc.dealloc step m s ptr l1 = MiMalloc.dealloc step m s ptr l2 :=
  ⟨rfl, rfl⟩

/-- C5: whenever the foreign primitive returns the sentinel `0`, the
corresponding adapter operation returns `0` unchanged, having performed
exactly the single foreign call: the final foreign state is the one
produced by that one call (no retry, no fallback allocation) and the
trace is that one call. -/
theorem sentinel_propagated (m : MiMalloc) (h : MiHeap) (layout : Layout)
    (ptr new_size : Nat) :
    ((miStep h (FFICall.malloc_aligned layout.size layout.align)).2 = 0 →
      MiMalloc.alloc miStep m h layout =
        ((miStep h (FFICall.malloc_aligned layout.size layout.align)).1,
          [FFICall.malloc_aligned layout.size layout.align], 0)) ∧
    ((miStep h (FFICall.zalloc_aligned layout.size layout.align)).2 = 0 →
      MiMalloc.alloc_zeroed miStep m h layout =
        ((miStep h (FFICall.zalloc_aligned layout.size layout.align)).1,
          [FFICall.zalloc_aligned layout.size layout.align], 0)) ∧
    ((miStep h (FFICall.realloc_aligned ptr new_size layout.align)).2 = 0 →
      MiMalloc.realloc miStep m h ptr layout new_size =
        ((miStep h (FFICall.realloc_aligned ptr new_size layout.align)).1,
          [FFICall.realloc_aligned ptr new_size layout.align], 0)) := by
  refine ⟨fun hz => ?_, fun hz => ?_, fun hz => ?_⟩
  · have e : MiMalloc.alloc miStep m h layout =
        ((miStep h (FFICall.malloc_aligned layout.size layout.align)).1,
          [FFICall.malloc_aligned layout.size layout.align],
          (miStep h (FFICall.malloc_aligned layout.size layout.align)).2) :=
      rfl
    rw [e, hz]
  · have e : MiMalloc.alloc_zeroed miStep m h layout =
        ((miStep h (FFICall.zalloc_aligned layout.size layout.align)).1,
          [FFICall.zalloc_aligned layout.size layout.align],
          (miStep h (FFICall.zalloc_aligned layout.size layout.align)).2) :=
      rfl
    rw [e, hz]
  · have e : MiMalloc.realloc miStep m h ptr layout new_size =
        ((miStep h (FFICall.realloc_aligned ptr new_size layout.align)).1,
          [FFICall.realloc_aligned ptr new_size layout.align],
          (miStep h (FFICall.realloc_aligned ptr new_size layout.align)).2) :=
      rfl
    rw [e, hz]

theorem sentinel_propagated_witness :
    MiMalloc.alloc miStep MiMalloc.mk heapF (Layout.mk 8 8) =
        (heapF, [FFICall.malloc_aligned 8 8], 0) ∧
    MiMalloc.alloc_zeroed miStep MiMalloc.mk heapF (Layout.mk 8 8) =
        (heapF, [FFICall.zalloc_aligned 8 8], 0) ∧
    MiMalloc.realloc miStep MiMalloc.mk heapF 5 (Layout.mk 8 8) 16 =
        (heapF, [FFICall.realloc_aligned 5 16 8], 0) :=
  ⟨(sentinel_propagated MiMalloc.mk heapF (Layout.mk 8 8) 5 16).1 rfl,
    (sentinel_propagated MiMalloc.mk heapF (Layout.mk 8 8) 5 16).2.1 rfl,
    (sentinel_propagated MiMalloc.mk heapF (Layout.mk 8 8) 5 16).2.2 rfl⟩

/-- C6: when the foreign resize primitive fails (returns the sentinel),
`realloc` returns the sentinel with the foreign heap completely
untouched and the trace showing the single resize call and nothing
else: no further foreign call touches the original handle, which stays
allocated exactly as before. -/
theorem realloc_failure_leaves_heap (m : MiMalloc) (h : MiHeap) (ptr : Nat)
    (layout : Layout) (new_size : Nat)
    (hz : (miStep h
        (FFICall.realloc_aligned ptr new_size layout.align)).2 = 0) :
    MiMalloc.realloc miStep m h ptr layout new_size =
      (h, [FFICall.realloc_aligned ptr new_size layout.align], 0) := by
  have e : MiMalloc.realloc miStep m h ptr layout new_size =
      ((miStep h (FFICall.realloc_aligned ptr new_size layout.align)).1,
        [FFICall.realloc_aligned ptr new_size layout.align],
        (miStep h (FFICall.realloc_aligned ptr new_size layout.align)).2) :=
    rfl
  rw [e, hz]
  rw [miStep_realloc_eq] at hz ⊢
  split_ifs at hz ⊢ with hc
  · exfalso
    have h1 : 1 ≤ alignUp (max h.next 1) layout.align := one_le_alignUp _ _
    simp at hz
    omega
  · rfl

theorem realloc_failure_leaves_heap_witness :
    MiMalloc.realloc miStep MiMalloc.mk heapF 2 (Layout.mk 5 4) 16 =
      (heapF, [FFICall.realloc_aligned 2 16 4], 0) :=
  realloc_failure_leaves_heap MiMalloc.mk heapF 2 (Layout.mk 5 4) 16 rfl

/-- The `cfg` condition guarding `compile_error!("Choose only one secure
option!")` (src/lib.rs:32-38), over the four hardening-mode feature
flags.  The build fails at compile time exactly when this predicate
holds; no trace of it remains at run time — the adapter operations above
take no mode argument at all. -/
def secureConflict (secure_full secure_1 secure_2 secure_3 : Bool) : Bool :=
  (secure_full && (secure_1 || secure_2 || secure_3)) ||
  (secure_1 && (secure_full || secure_2 || secure_3)) ||
  (secure_2 && (secure_1 || secure_full || secure_3)) ||
  (secure_3 && (secure_1 || secure_2 || secure_full))

/-- C7: the build-failure condition holds exactly when at least two of
the four hardening-mode features are enabled simultaneously: every pair
of distinct modes enabled together trips the `compile_error!`, while
enabling exactly one mode, or none, never does. -/
theorem secure_modes_mutually_exclusive :
    ∀ secure_full secure_1 secure_2 secure_3 : Bool,
      secureConflict secure_full secure_1 secure_2 secure_3 = true ↔
        2 ≤ secure_full.toNat + secure_1.toNat + secure_2.toNat +
          secure_3.toNat := by
  decide

/-- C8: the adapter is stateless: `MiMalloc` is a zero-sized type with a
single value, and no operation reads or writes adapter-owned state —
each is a pure function of the operation's arguments alone, identical
for any two adapter values and on any repetition. -/
theorem adapter_stateless :
    (∀ m1 m2 : MiMalloc, m1 = m2) ∧
    (∀ (σ : Type) (step : σ → FFICall → σ × Nat) (m1 m2 : MiMalloc)
        (s : σ) (l : Layout),
      MiMalloc.alloc step m1 s l = MiMalloc.alloc step m2 s l) ∧
    (∀ (σ : Type) (step : σ → FFICall → σ × Nat) (m1 m2 : MiMalloc)
        (s : σ) (l : Layout),
      MiMalloc.alloc_zeroed step m1 s l = MiMalloc.alloc_zeroed step m2 s l) ∧
    (∀ (σ : Type) (step : σ → FFICall → σ × Nat) (m1 m2 : MiMalloc)
        (s : σ) (ptr : Nat) (l : Layout),
      MiMalloc.dealloc step m1 s ptr l = MiMalloc.dealloc step m2 s ptr l) ∧
    (∀ (σ : Type) (step : σ → FFICall → σ × Nat) (m1 m2 : MiMalloc)
        (s : σ) (ptr : Nat) (l : Layout) (new_size : Nat),
      MiMalloc.realloc step m1 s ptr l new_size =
        MiMalloc.realloc step m2 s ptr l new_size) :=
  ⟨fun m1 m2 => by cases m1; cases m2; rfl,
    fun _ _ _ _ _ _ => rfl, fun _ _ _ _ _ _ => rfl,
    fun _ _ _ _ _ _ _ => rfl, fun _ _ _ _ _ _ _ _ => rfl⟩

/-- C9: `realloc` depends on the old layout only through its alignment:
for any foreign library, two old layouts of equal alignment but
arbitrary (possibly different) sizes yield the identical foreign call,
final state, trace and result — the recorded old size is ignored. -/
theorem realloc_ignores_old_size {σ : Type} (step : σ → FFICall → σ × Nat)
    (m : MiMalloc) (s : σ) (ptr new_size : Nat) (l1 l2 : Layout)
    (halign : l1.align = l2.align) :
    MiMalloc.realloc step m s ptr l1 new_size =
      MiMalloc.realloc step m s ptr l2 new_size := by
  have e1 : MiMalloc.realloc step m s ptr l1 new_size =
      ((step s (FFICall.realloc_aligned ptr new_size l1.align)).1,
        [FFICall.realloc_aligned ptr new_size l1.align],
        (step s (FFICall.realloc_aligned ptr new_size l1.align)).2) := rfl
  have e2 : MiMalloc.realloc step m s ptr l2 new_size =
      ((step s (FFICall.realloc_aligned ptr new_size l2.align)).1,
        [FFICall.realloc_aligned ptr new_size l2.align],
        (step s (FFICall.realloc_aligned ptr new_size l2.align)).2) := rfl
  rw [e1, e2, halign]

theorem realloc_ignores_old_size_witness :
    (Layout.mk 8 8).align = (Layout.mk 123 8).align ∧
    MiMalloc.realloc (fun (s : Nat) _ => (s, 0)) MiMalloc.mk 0 7
        (Layout.mk 8 8) 16 =
      MiMalloc.realloc (fun (s : Nat) _ => (s, 0)) MiMalloc.mk 0 7
        (Layout.mk 123 8) 16 :=
  ⟨rfl,
    realloc_ignores_old_size (fun (s : Nat) _ => (s, 0)) MiMalloc.mk 0 7 16
      (Layout.mk 8 8) (Layout.mk 123 8) rfl⟩

/-- C10: every one of the four operations performs exactly one
unconditional foreign call, for every foreign library, state, handle
and layout — there is no branching and no inspection of the handle; in
particular `dealloc` on the null sentinel `0` forwards `mi_free(0)`
unguarded. -/
theorem ops_single_unconditional_call {σ : Type}
    (step : σ → FFICall → σ × Nat) (m : MiMalloc) (s : σ) (l : Layout)
    (ptr new_size : Nat) :
    (MiMalloc.alloc step m s l).2.1 =
        [FFICall.malloc_aligned l.size l.align] ∧
    (MiMalloc.alloc_zeroed step m s l).2.1 =
        [FFICall.zalloc_aligned l.size l.align] ∧
    (MiMalloc.dealloc step m s ptr l).2 = [FFICall.free ptr] ∧
    (MiMalloc.realloc step m s ptr l new_size).2.1 =
        [FFICall.realloc_aligned ptr new_size l.align] ∧
    (MiMalloc.dealloc step m s 0 l).2 = [FFICall.free 0] :=
  ⟨rfl, rfl, rfl, rfl, rfl⟩
